import Mathlib

/-
Formal model of the medical-certificate monitor: the `MedicalStorage` record
store of `src/app.py` (doctors, employees, certificates, derived counters)
and the diagnosis-code risk classifier described in the specification.

Modelling conventions:
 - Python dicts keep insertion order, so each collection is an association
   list `List (String × _)` in insertion order; `dict` update-in-place is a
   position-preserving `map`, `del` is `eraseP`.
 - `uuid.uuid4()` identifier generation is modelled by passing the fresh
   identifier as an explicit argument; the reachability relation below
   constrains it to be distinct from every identifier already present
   (the collision-freedom assumption of uuid4).
 - Wall-clock timestamps (`created_at`, `last_update`) are not modelled;
   `last_attendance` is, because it is set from the certificate date.
 - Python float division in `get_statistics` is modelled as exact division
   in `ℚ`; the guarded division-by-zero behaviour is unaffected.
 - File persistence (`save_data`) is a no-op on the in-memory state and is
   omitted.
-/

/-- A doctor record, mirroring the dict built in `MedicalStorage.add_doctor`. -/
structure Doctor where
  crm : String
  name : String
  specialty : String
  phone : String
  email : String
  total_attendances : Nat
  total_certificates : Nat
  last_attendance : Option String
deriving Repr, DecidableEq

/-- An employee record, mirroring the dict built in `MedicalStorage.add_employee`.
The source record has exactly these descriptive fields: registration, name and
department (plus counters); there is no role field. -/
structure Employee where
  registration : String
  name : String
  department : String
  total_attendances : Nat
  total_certificates : Nat
deriving Repr, DecidableEq

/-- A certificate record, mirroring the dict built in `MedicalStorage.add_certificate`.
The source record stores only these fields; no diagnosis-code classification
result is stored on it. -/
structure Certificate where
  doctor_id : String
  employee_id : String
  certificate_date : String
  days_off : Int
  diagnosis : String
deriving Repr, DecidableEq

/-- The in-memory state of `MedicalStorage`: the three collections, as
insertion-ordered association lists keyed by generated identifier. -/
structure Store where
  doctors : List (String × Doctor)
  employees : List (String × Employee)
  certificates : List (String × Certificate)
deriving Repr, DecidableEq

/-- The initial empty state created by `load_data` when no data file exists. -/
def Store.empty : Store := ⟨[], [], []⟩

/-- Python `str.lower()`, character by character. -/
def lowerStr (s : String) : String := String.mk (s.data.map Char.toLower)

/-- Python `str.upper()`, character by character. -/
def upperStr (s : String) : String := String.mk (s.data.map Char.toUpper)

/-- Python `str.strip()`: remove surrounding whitespace. -/
def trimStr (s : String) : String :=
  String.mk (((s.data.dropWhile Char.isWhitespace).reverse.dropWhile
    Char.isWhitespace).reverse)

/-- Association-list lookup: `d[k]` / `k in d` on a Python dict. -/
def getVal? (l : List (String × α)) (k : String) : Option α :=
  (l.find? (fun p => p.1 == k)).map (fun p => p.2)

/-- Certificates whose `doctor_id` is `k`, as counted in `delete_doctor`. -/
def countCertsD (certs : List (String × Certificate)) (k : String) : Nat :=
  (certs.filter (fun c => c.2.doctor_id == k)).length

/-- Certificates whose `employee_id` is `k`. -/
def countCertsE (certs : List (String × Certificate)) (k : String) : Nat :=
  (certs.filter (fun c => c.2.employee_id == k)).length

/-- `MedicalStorage.add_doctor`: scans for an existing doctor with the same CRM
under case-insensitive comparison; on a hit returns the existing identifier and
leaves the state unchanged, otherwise appends a new record with zeroed counters.
The fresh uuid is the `newId` argument. -/
def Store.add_doctor (s : Store) (newId crm name specialty phone email : String) :
    String × Store :=
  match s.doctors.find? (fun p => lowerStr p.2.crm == lowerStr crm) with
  | some p => (p.1, s)
  | none =>
      (newId, { s with doctors := s.doctors ++
        [(newId, { crm := crm, name := name, specialty := specialty, phone := phone,
                   email := email, total_attendances := 0, total_certificates := 0,
                   last_attendance := none })] })

/-- `MedicalStorage.add_employee`: scans for an existing employee with exactly
the same registration; on a hit returns the existing identifier and leaves the
state unchanged, otherwise appends a new record with zeroed counters. -/
def Store.add_employee (s : Store) (newId registration name department : String) :
    String × Store :=
  match s.employees.find? (fun p => p.2.registration == registration) with
  | some p => (p.1, s)
  | none =>
      (newId, { s with employees := s.employees ++
        [(newId, { registration := registration, name := name, department := department,
                   total_attendances := 0, total_certificates := 0 })] })

/-- The counter update `add_certificate` performs on the referenced doctor. -/
def bumpDoctor (d : Doctor) (date : String) : Doctor :=
  { d with total_attendances := d.total_attendances + 1,
           total_certificates := d.total_certificates + 1,
           last_attendance := some date }

/-- The counter update `add_certificate` performs on the referenced employee. -/
def bumpEmployee (e : Employee) : Employee :=
  { e with total_attendances := e.total_attendances + 1,
           total_certificates := e.total_certificates + 1 }

/-- `MedicalStorage.add_certificate`: unconditionally stores the new
certificate record, then increments the counters of the referenced doctor and
employee only when the given identifier is a key of the respective collection
(a missing reference is silently skipped, and the certificate is still stored
with the dangling reference; no error is raised). -/
def Store.add_certificate (s : Store) (newId doctor_id employee_id certificate_date : String)
    (days_off : Int) (diagnosis : String) : String × Store :=
  (newId,
    { doctors := s.doctors.map
        (fun p => if p.1 == doctor_id then (p.1, bumpDoctor p.2 certificate_date) else p),
      employees := s.employees.map
        (fun p => if p.1 == employee_id then (p.1, bumpEmployee p.2) else p),
      certificates := s.certificates ++
        [(newId, { doctor_id := doctor_id, employee_id := employee_id,
                   certificate_date := certificate_date, days_off := days_off,
                   diagnosis := diagnosis })] })

/-- The doctor fields the application passes to `update_doctor` as keyword
arguments (`show_doctor_edit_delete` supplies exactly name, specialty, phone
and email). -/
inductive DoctorField where
  | name
  | specialty
  | phone
  | email
deriving Repr, DecidableEq

/-- Write one doctor field. -/
def setField (d : Doctor) (f : DoctorField) (v : String) : Doctor :=
  match f with
  | .name => { d with name := v }
  | .specialty => { d with specialty := v }
  | .phone => { d with phone := v }
  | .email => { d with email := v }

/-- Read one doctor field. -/
def getField (d : Doctor) (f : DoctorField) : String :=
  match f with
  | .name => d.name
  | .specialty => d.specialty
  | .phone => d.phone
  | .email => d.email

/-- The kwargs loop of `update_doctor`: each supplied value is written only
when truthy (for these string fields: non-empty). -/
def applyUpdates (d : Doctor) (fields : List (DoctorField × String)) : Doctor :=
  fields.foldl (fun d fv => if fv.2 == "" then d else setField d fv.1 fv.2) d

/-- `MedicalStorage.update_doctor`: when the identifier is a key, applies the
truthy-only field updates in place and returns True; otherwise returns False
and changes nothing. -/
def Store.update_doctor (s : Store) (doctor_id : String)
    (fields : List (DoctorField × String)) : Bool × Store :=
  match getVal? s.doctors doctor_id with
  | some _ =>
      let doctors := s.doctors.map
        (fun p => if p.1 == doctor_id then (p.1, applyUpdates p.2 fields) else p)
      (true, { s with doctors := doctors })
  | none => (false, s)

/-- `MedicalStorage.delete_doctor`: refuses with a failure message when any
certificate references the doctor, reports not-found when the identifier is
absent, and removes the record otherwise. -/
def Store.delete_doctor (s : Store) (doctor_id : String) : (Bool × String) × Store :=
  match getVal? s.doctors doctor_id with
  | some _ =>
      let n := countCertsD s.certificates doctor_id
      if n > 0 then
        ((false, "Médico possui " ++ toString n ++
          " atendimentos registrados. Não pode ser excluído."), s)
      else
        ((true, "Médico excluído com sucesso!"),
          { s with doctors := s.doctors.eraseP (fun p => p.1 == doctor_id) })
  | none => ((false, "Médico não encontrado!"), s)

/-- One row of the list built by `get_top_doctors_certificates`. -/
structure DoctorEntry where
  doctor_id : String
  crm : String
  name : String
  specialty : String
  total_certificates : Nat
  total_attendances : Nat
  last_attendance : Option String
deriving Repr, DecidableEq

/-- The row list `doctors_list` built by `get_top_doctors_certificates`, in
collection (insertion) order. -/
def doctorEntries (s : Store) : List DoctorEntry :=
  s.doctors.map (fun p =>
    { doctor_id := p.1, crm := p.2.crm, name := p.2.name, specialty := p.2.specialty,
      total_certificates := p.2.total_certificates,
      total_attendances := p.2.total_attendances,
      last_attendance := p.2.last_attendance })

/-- Stable insertion of `x` into a list already sorted by `key` descending:
`x` goes before the first element whose key does not exceed `key x`, so among
equal keys earlier-inserted elements stay first. -/
def insertDesc (key : α → Nat) (x : α) : List α → List α
  | [] => [x]
  | y :: ys => if key y ≤ key x then x :: y :: ys else y :: insertDesc key x ys

/-- Stable descending sort by `key`, modelling Python `sorted(..., reverse=True)`
(which is stable). -/
def sortDesc (key : α → Nat) : List α → List α
  | [] => []
  | x :: xs => insertDesc key x (sortDesc key xs)

/-- `MedicalStorage.get_top_doctors_certificates`: all doctors sorted by
`total_certificates` descending (stable), truncated to `limit`. -/
def Store.get_top_doctors_certificates (s : Store) (limit : Nat) : List DoctorEntry :=
  (sortDesc (fun e => e.total_certificates) (doctorEntries s)).take limit

/-- The dict returned by `MedicalStorage.get_statistics`: exactly these six
components (the source computes no risk-certificate count). -/
structure Stats where
  total_doctors : Nat
  total_employees : Nat
  total_certificates : Nat
  total_attendances : Nat
  certificates_per_doctor : ℚ
  certificates_per_employee : ℚ
deriving Repr, DecidableEq

/-- `MedicalStorage.get_statistics`. -/
def Store.get_statistics (s : Store) : Stats :=
  let total_doctors := s.doctors.length
  let total_employees := s.employees.length
  let total_certificates := s.certificates.length
  { total_doctors := total_doctors,
    total_employees := total_employees,
    total_certificates := total_certificates,
    total_attendances := (s.doctors.map (fun p => p.2.total_attendances)).sum,
    certificates_per_doctor :=
      if total_doctors > 0 then (total_certificates : ℚ) / (total_doctors : ℚ) else 0,
    certificates_per_employee :=
      if total_employees > 0 then (total_certificates : ℚ) / (total_employees : ℚ) else 0 }

/-- Modelled from the spec: the Code Classifier component (the `normalize` and
`classify` functions and the fixed risk table) is not present in the source
file under version control here; it is reconstructed from §4.1 of the
specification. Result of classifying a normalized diagnosis code. -/
structure ClassificationResult where
  risk : Bool
  description : String
deriving Repr, DecidableEq

/-- Modelled from the spec: remove all literal dot characters from a code. -/
def stripDots (s : String) : String :=
  String.mk (s.data.filter (fun c => !(c == '.')))

/-- Modelled from the spec: canonical re-dotting of a dot-free run — when the
run has more than 3 characters, a dot is reinserted after the 3rd character;
a run of 3 or fewer characters is returned unchanged. -/
def normalizeRun (s : String) : String :=
  if s.length > 3 then String.mk (s.data.take 3) ++ "." ++ String.mk (s.data.drop 3)
  else s

/-- Modelled from the spec: `normalize` returns the empty string for empty
input, and otherwise uppercases, strips surrounding whitespace, removes all
dots, and re-dots the run into canonical `LLL.D+` form. (Named `normalize` in
the spec; renamed here because Mathlib already declares `normalize`.) -/
def normalizeCode (raw : String) : String :=
  if raw = "" then "" else normalizeRun (stripDots (trimStr (upperStr raw)))

/-- One entry of the fixed risk table: a code and its risk description. -/
structure RiskEntry where
  code : String
  description : String
deriving Repr, DecidableEq

/-- Modelled from the spec: the fixed ordered risk table. The real table has
fourteen entries; only the entries whose code or description the specification
itself names (Z73 burnout, F32/F33 depressive, F41 anxiety, F43 stress) are
reconstructed here. The table is configuration data; the matching order is
declaration order. -/
def riskTable : List RiskEntry :=
  [ { code := "Z73", description := "Burnout (Esgotamento Profissional)" },
    { code := "F32", description := "Transtornos Depressivos" },
    { code := "F33", description := "Transtorno Depressivo Recorrente" },
    { code := "F41", description := "Transtornos de Ansiedade (Pânico/Generalizada)" },
    { code := "F43", description := "Reações ao Estresse Grave" } ]

/-- Modelled from the spec: an entry matches a code when the dot-stripped
entry code is a string-prefix of the dot-stripped input. -/
def entryMatches (e : RiskEntry) (s : String) : Bool :=
  List.isPrefixOf (stripDots e.code).data (stripDots s).data

/-- Modelled from the spec: `classify` over an explicit table — empty input is
non-risk; otherwise the first table entry (in declaration order) whose
dot-stripped code is a prefix of the dot-stripped input wins; no match is
non-risk. Total over all string inputs. -/
def classifyWith (table : List RiskEntry) (s : String) : ClassificationResult :=
  if s = "" then { risk := false, description := "" }
  else
    match table.find? (fun e => entryMatches e s) with
    | some e => { risk := true, description := e.description }
    | none => { risk := false, description := "" }

/-- Modelled from the spec: `classify` against the fixed risk table. -/
def classify (s : String) : ClassificationResult :=
  classifyWith riskTable s

/-- All identifiers occurring anywhere in the store: as a key of one of the
three collections or as a (possibly dangling) reference on a certificate. -/
def usedId (s : Store) (id : String) : Bool :=
  s.doctors.any (fun p => p.1 == id) ||
  s.employees.any (fun p => p.1 == id) ||
  s.certificates.any (fun p => p.1 == id || p.2.doctor_id == id || p.2.employee_id == id)

/-- Store states reachable from the empty store through the public mutating
operations. Certificate creation may name arbitrary (even dangling) doctor and
employee identifiers, as the source accepts them; freshly generated uuids are
assumed distinct from every identifier already present (uuid4 collision
freedom). -/
inductive Reachable : Store → Prop where
  | empty : Reachable Store.empty
  | add_doctor (s : Store) (id crm name specialty phone email : String) :
      Reachable s → usedId s id = false →
      Reachable (s.add_doctor id crm name specialty phone email).2
  | add_employee (s : Store) (id registration name department : String) :
      Reachable s → usedId s id = false →
      Reachable (s.add_employee id registration name department).2
  | add_certificate (s : Store) (id doctor_id employee_id date : String)
      (days : Int) (diagnosis : String) :
      Reachable s → usedId s id = false →
      Reachable (s.add_certificate id doctor_id employee_id date days diagnosis).2
  | update_doctor (s : Store) (id : String) (fields : List (DoctorField × String)) :
      Reachable s → Reachable (s.update_doctor id fields).2
  | delete_doctor (s : Store) (id : String) :
      Reachable s → Reachable (s.delete_doctor id).2

/-- The counter-consistency invariant: every doctor's and employee's
`total_certificates` equals the number of certificates referencing it. -/
def CounterInv (s : Store) : Prop :=
  (∀ p ∈ s.doctors, p.2.total_certificates = countCertsD s.certificates p.1) ∧
  (∀ p ∈ s.employees, p.2.total_certificates = countCertsE s.certificates p.1)

/-- The last truthy (non-empty) value supplied for field `f` in an update
call, if any. -/
def lastTruthy (f : DoctorField) : List (DoctorField × String) → Option String
  | [] => none
  | fv :: rest =>
      match lastTruthy f rest with
      | some v => some v
      | none => if fv.1 == f && !(fv.2 == "") then some fv.2 else none

/-- Concrete store for the end-to-end counter check: one doctor, one employee,
one certificate, built by the public operations. -/
def storeW2 : Store :=
  (((Store.empty.add_doctor "id1" "1/SP" "A" "" "" "").2.add_employee
      "id2" "1" "B" "").2.add_certificate "id3" "id1" "id2" "2024-01-01" 5 "F41").2

/-- Concrete store with one registered doctor, for the dedup check. -/
def storeW5 : Store := (Store.empty.add_doctor "d1" "100/SP" "Ana" "" "" "").2

/-- Concrete store with one registered employee, for the dedup check. -/
def storeW6 : Store := (Store.empty.add_employee "e1" "100" "Alice" "").2

/-- Concrete store with two doctors (4 and 1 attendances), one employee and
three certificates, for the statistics check. -/
def storeW7 : Store :=
  { doctors :=
      [("d1", { crm := "1", name := "A", specialty := "", phone := "", email := "",
                total_attendances := 4, total_certificates := 2,
                last_attendance := none }),
       ("d2", { crm := "2", name := "B", specialty := "", phone := "", email := "",
                total_attendances := 1, total_certificates := 1,
                last_attendance := none })],
    employees :=
      [("e1", { registration := "10", name := "E", department := "",
                total_attendances := 3, total_certificates := 3 })],
    certificates :=
      [("c1", { doctor_id := "d1", employee_id := "e1", certificate_date := "2024-01-01",
                days_off := 1, diagnosis := "" }),
       ("c2", { doctor_id := "d1", employee_id := "e1", certificate_date := "2024-01-02",
                days_off := 1, diagnosis := "" }),
       ("c3", { doctor_id := "d2", employee_id := "e1", certificate_date := "2024-01-03",
                days_off := 1, diagnosis := "" })] }

/-- A doctor record carrying only a certificate counter, for the top-list
check. -/
def docW8 (crm : String) (cnt : Nat) : Doctor :=
  { crm := crm, name := crm, specialty := "", phone := "", email := "",
    total_attendances := cnt, total_certificates := cnt, last_attendance := none }

/-- Concrete store with three doctors whose certificate counts are 5, 3, 3 in
insertion order, for the stable-sort tie-break check. -/
def storeW8 : Store :=
  { doctors := [("d1", docW8 "1" 5), ("d2", docW8 "2" 3), ("d3", docW8 "3" 3)],
    employees := [], certificates := [] }

/-- Concrete store with a referenced doctor and an unreferenced doctor, for
the delete checks. -/
def storeW9 : Store :=
  { doctors :=
      [("d1", { crm := "1", name := "A", specialty := "", phone := "", email := "",
                total_attendances := 1, total_certificates := 1,
                last_attendance := some "2024-01-01" }),
       ("d2", { crm := "2", name := "B", specialty := "", phone := "", email := "",
                total_attendances := 0, total_certificates := 0,
                last_attendance := none })],
    employees := [],
    certificates :=
      [("c1", { doctor_id := "d1", employee_id := "e9", certificate_date := "2024-01-01",
                days_off := 1, diagnosis := "" })] }

/-- Concrete store with one doctor having non-empty name and empty phone, for
the update checks. -/
def storeW10 : Store :=
  { doctors :=
      [("d1", { crm := "1", name := "Ana", specialty := "Gp", phone := "", email := "",
                total_attendances := 0, total_certificates := 0,
                last_attendance := none })],
    employees := [], certificates := [] }

/-- Claim C1, code behaviour at the failing input: certificate creation with
identifiers absent from both collections raises no error, stores the
certificate with the dangling references, and returns the new identifier —
in contradiction with the claimed ReferenceError failure. -/
theorem C1_dangling_certificate_stored :
    getVal? Store.empty.doctors "D1" = none ∧
    getVal? Store.empty.employees "E1" = none ∧
    Store.empty.add_certificate "c1" "D1" "E1" "2024-01-01" 3 "" =
      ("c1",
        { doctors := [], employees := [],
          certificates := [("c1",
            { doctor_id := "D1", employee_id := "E1", certificate_date := "2024-01-01",
              days_off := 3, diagnosis := "" })] }) := by
  refine ⟨rfl, rfl, ?_⟩
  decide

/-- Claim C4: `normalize` returns the empty string on empty input; otherwise
it uppercases, trims surrounding whitespace, removes all dots, returns a run
of 3 or fewer characters unchanged and otherwise reinserts a dot after the
3rd character; with the four concrete examples of the spec. -/
theorem C4_normalize_spec :
    normalizeCode "Z73.0" = "Z73.0" ∧ normalizeCode "z730" = "Z73.0" ∧
    normalizeCode "f32" = "F32" ∧ normalizeCode "" = "" ∧
    (∀ raw : String, raw ≠ "" →
      (stripDots (trimStr (upperStr raw))).data
          = ((trimStr (upperStr raw)).data.filter (fun c => !(c == '.'))) ∧
      ((stripDots (trimStr (upperStr raw))).length ≤ 3 →
        normalizeCode raw = stripDots (trimStr (upperStr raw))) ∧
      (3 < (stripDots (trimStr (upperStr raw))).length →
        normalizeCode raw =
          String.mk ((stripDots (trimStr (upperStr raw))).data.take 3) ++ "." ++
            String.mk ((stripDots (trimStr (upperStr raw))).data.drop 3))) := by
  refine ⟨by decide, by decide, by decide, by decide, ?_⟩
  intro raw hraw
  refine ⟨rfl, ?_, ?_⟩
  · intro hle
    unfold normalizeCode normalizeRun
    rw [if_neg hraw, if_neg (by omega)]
  · intro hgt
    unfold normalizeCode normalizeRun
    rw [if_neg hraw, if_pos (by omega)]

/-- Witness for C4 at the concrete input "ab" (short-run branch). -/
theorem C4_normalize_spec_witness :
    normalizeCode "ab" = stripDots (trimStr (upperStr "ab")) :=
  (C4_normalize_spec.2.2.2.2 "ab" (by decide)).2.1 (by decide)

/-- `find?` returns the element at the first index satisfying the predicate. -/
theorem findFirstIdx {α : Type _} (p : α → Bool) (l : List α) :
    ∀ (i : Nat) (hi : i < l.length), p (l.get ⟨i, hi⟩) = true →
      (∀ (j : Nat) (hj : j < l.length), j < i → p (l.get ⟨j, hj⟩) = false) →
      l.find? p = some (l.get ⟨i, hi⟩) := by
  induction l with
  | nil => intro i hi _ _; simp at hi
  | cons x xs ih =>
    intro i hi hp hprev
    cases i with
    | zero => simpa using List.find?_cons_of_pos xs (by simpa using hp)
    | succ i =>
      have hx : p x = false := by simpa using hprev 0 (by omega) (by omega)
      rw [List.find?_cons_of_neg _ (by simp [hx])]
      exact ih i (by simpa using hi) (by simpa using hp)
        (fun j hj hji => by simpa using hprev (j + 1) (by omega) (by omega))

/-- Claim C3: `classify` is total and first-prefix-match in declaration order:
the result is non-risk exactly on empty input or when no table entry's
dot-stripped code is a prefix of the dot-stripped input; when the entry at
index `i` matches and no earlier entry does, the result is risk with that
entry's description (so a later match never overrides an earlier one); and
`classify (normalize "F329")` is risk via the `F32` entry. -/
theorem C3_classify_first_match :
    (∀ s : String, (classify s).risk = false ↔
        (s = "" ∨ ∀ e ∈ riskTable, entryMatches e s = false)) ∧
    (∀ s : String, s ≠ "" → ∀ (i : Nat) (hi : i < riskTable.length),
        entryMatches (riskTable.get ⟨i, hi⟩) s = true →
        (∀ (j : Nat) (hj : j < riskTable.length), j < i →
            entryMatches (riskTable.get ⟨j, hj⟩) s = false) →
        classify s = { risk := true,
                       description := (riskTable.get ⟨i, hi⟩).description }) ∧
    (riskTable.get ⟨1, by decide⟩).code = "F32" ∧
    classify (normalizeCode "F329") =
      { risk := true, description := (riskTable.get ⟨1, by decide⟩).description } := by
  refine ⟨?_, ?_, by decide, by decide⟩
  · intro s
    rcases hf : riskTable.find? (fun e => entryMatches e s) with _ | e
    · have hall : ∀ e ∈ riskTable, entryMatches e s = false := by
        intro e he
        simpa using List.find?_eq_none.mp hf e he
      constructor
      · intro _; exact Or.inr hall
      · intro _
        by_cases hs : s = "" <;> simp [classify, classifyWith, hs, hf]
    · by_cases hs : s = ""
      · constructor
        · intro _; exact Or.inl hs
        · intro _; simp [classify, classifyWith, hs]
      · have hme : e ∈ riskTable := List.mem_of_find?_eq_some hf
        have hpe : entryMatches e s = true := by simpa using List.find?_some hf
        constructor
        · intro hrisk
          have htrue : (classify s).risk = true := by
            simp [classify, classifyWith, hs, hf]
          exact absurd (htrue.symm.trans hrisk) (by decide)
        · rintro (h | hall)
          · exact absurd h hs
          · exact absurd hpe (by simp [hall e hme])
  · intro s hs i hi hp hprev
    have hfind := findFirstIdx (fun e => entryMatches e s) riskTable i hi hp hprev
    simp [classify, classifyWith, hs, hfind]

/-- Witness for C3: the Z73 entry (index 0, no earlier entries) classifies
"Z730" as risk. -/
theorem C3_classify_first_match_witness :
    classify "Z730" = { risk := true,
                        description := (riskTable.get ⟨0, by decide⟩).description } :=
  C3_classify_first_match.2.1 "Z730" (by decide) 0 (by decide) (by decide)
    (fun _ _ hji => absurd hji (by omega))

/-- Claim C5: `add_doctor` deduplicates by case-insensitive CRM — on a hit it
returns an existing matching doctor's identifier and changes nothing;
otherwise it appends exactly one new doctor with zeroed counters and returns
the fresh identifier. -/
theorem C5_add_doctor_dedup (s : Store) (newId crm name specialty phone email : String) :
    ((∃ p ∈ s.doctors, lowerStr p.2.crm = lowerStr crm) →
       (s.add_doctor newId crm name specialty phone email).2 = s ∧
       ∃ p ∈ s.doctors,
         p.1 = (s.add_doctor newId crm name specialty phone email).1 ∧
         lowerStr p.2.crm = lowerStr crm) ∧
    ((∀ p ∈ s.doctors, lowerStr p.2.crm ≠ lowerStr crm) →
       s.add_doctor newId crm name specialty phone email =
         (newId, { s with doctors := s.doctors ++
           [(newId, { crm := crm, name := name, specialty := specialty, phone := phone,
                      email := email, total_attendances := 0, total_certificates := 0,
                      last_attendance := none })] })) := by
  constructor
  · rintro ⟨p, hp, hcrm⟩
    have hsome : (s.doctors.find? (fun q => lowerStr q.2.crm == lowerStr crm)).isSome := by
      rw [List.find?_isSome]
      exact ⟨p, hp, by simp [hcrm]⟩
    rcases Option.isSome_iff_exists.mp hsome with ⟨q, hq⟩
    refine ⟨by simp [Store.add_doctor, hq], q, List.mem_of_find?_eq_some hq,
      by simp [Store.add_doctor, hq], ?_⟩
    simpa using List.find?_some hq
  · intro hall
    have hnone : s.doctors.find? (fun q => lowerStr q.2.crm == lowerStr crm) = none := by
      rw [List.find?_eq_none]
      intro q hq
      simp [hall q hq]
    simp [Store.add_doctor, hnone]

/-- Witness for C5: a hit under different CRM case, and a miss. -/
theorem C5_add_doctor_dedup_witness :
    ((storeW5.add_doctor "d2" "100/sp" "Bia" "" "" "").2 = storeW5 ∧
      ∃ p ∈ storeW5.doctors,
        p.1 = (storeW5.add_doctor "d2" "100/sp" "Bia" "" "" "").1 ∧
        lowerStr p.2.crm = lowerStr "100/sp") ∧
    (storeW5.add_doctor "d2" "200/SP" "Bia" "" "" "" =
      ("d2", { storeW5 with doctors := storeW5.doctors ++
        [("d2", { crm := "200/SP", name := "Bia", specialty := "", phone := "",
                  email := "", total_attendances := 0, total_certificates := 0,
                  last_attendance := none })] })) :=
  ⟨(C5_add_doctor_dedup storeW5 "d2" "100/sp" "Bia" "" "" "").1 (by decide),
   (C5_add_doctor_dedup storeW5 "d2" "200/SP" "Bia" "" "" "").2 (by decide)⟩

/-- Counterexample to C6 as stated: a dedup hit on registration "100" with a
non-empty value supplied for the optional descriptive slot leaves the store
completely unchanged — nothing is backfilled (the department stays empty) and
the employee record (per the source) carries no role field at all, so the
claimed record with role "Nurse" never exists. -/
theorem C6_no_role_backfill :
    storeW6.add_employee "e2" "100" "Alice" "Nurse" = ("e1", storeW6) ∧
    storeW6.employees =
      [("e1", { registration := "100", name := "Alice", department := "",
                total_attendances := 0, total_certificates := 0 })] := by
  decide

/-- Claim C6 as amended: `add_employee` deduplicates by exact registration
match — a hit returns the existing identifier and leaves the store entirely
unchanged (no backfill of any field; the record has no role field); a miss
appends exactly one new employee with zeroed counters. -/
theorem C6_add_employee_dedup (s : Store) (newId registration name department : String) :
    ((∃ p ∈ s.employees, p.2.registration = registration) →
       (s.add_employee newId registration name department).2 = s ∧
       ∃ p ∈ s.employees,
         p.1 = (s.add_employee newId registration name department).1 ∧
         p.2.registration = registration) ∧
    ((∀ p ∈ s.employees, p.2.registration ≠ registration) →
       s.add_employee newId registration name department =
         (newId, { s with employees := s.employees ++
           [(newId, { registration := registration, name := name,
                      department := department, total_attendances := 0,
                      total_certificates := 0 })] })) := by
  constructor
  · rintro ⟨p, hp, hreg⟩
    have hsome : (s.employees.find? (fun q => q.2.registration == registration)).isSome := by
      rw [List.find?_isSome]
      exact ⟨p, hp, by simp [hreg]⟩
    rcases Option.isSome_iff_exists.mp hsome with ⟨q, hq⟩
    refine ⟨by simp [Store.add_employee, hq], q, List.mem_of_find?_eq_some hq,
      by simp [Store.add_employee, hq], ?_⟩
    simpa using List.find?_some hq
  · intro hall
    have hnone : s.employees.find? (fun q => q.2.registration == registration) = none := by
      rw [List.find?_eq_none]
      intro q hq
      simp [hall q hq]
    simp [Store.add_employee, hnone]

/-- Witness for C6 (amended): a dedup hit and a miss on a concrete store. -/
theorem C6_add_employee_dedup_witness :
    ((storeW6.add_employee "e2" "100" "Alice" "Nurse").2 = storeW6 ∧
      ∃ p ∈ storeW6.employees,
        p.1 = (storeW6.add_employee "e2" "100" "Alice" "Nurse").1 ∧
        p.2.registration = "100") ∧
    (storeW6.add_employee "e2" "200" "Bob" "" =
      ("e2", { storeW6 with employees := storeW6.employees ++
        [("e2", { registration := "200", name := "Bob", department := "",
                  total_attendances := 0, total_certificates := 0 })] })) :=
  ⟨(C6_add_employee_dedup storeW6 "e2" "100" "Alice" "Nurse").1 (by decide),
   (C6_add_employee_dedup storeW6 "e2" "200" "Bob" "").2 (by decide)⟩

/-- Counterexample to C7 as stated: on a concrete store the full statistics
record is exactly these six components — counts, attendance sum and the two
guarded ratios; the source computes no count of risk-flagged certificates
(certificate records store no classification at all). -/
theorem C7_statistics_shape :
    storeW7.get_statistics =
      { total_doctors := 2, total_employees := 1, total_certificates := 3,
        total_attendances := 5, certificates_per_doctor := 3 / 2,
        certificates_per_employee := 3 } := by
  simp only [Store.get_statistics, storeW7]
  norm_num

/-- Claim C7 as amended: `get_statistics` returns the three collection counts,
the sum of all doctors' attendance counters, and the two ratios — exact
division when the denominator is positive, 0 when it is 0 (never a division
fault) — and all-zero output on the empty store. No risk-certificate count is
produced. -/
theorem C7_get_statistics (s : Store) :
    (s.get_statistics).total_doctors = s.doctors.length ∧
    (s.get_statistics).total_employees = s.employees.length ∧
    (s.get_statistics).total_certificates = s.certificates.length ∧
    (s.get_statistics).total_attendances
        = (s.doctors.map (fun p => p.2.total_attendances)).sum ∧
    (s.doctors.length = 0 → (s.get_statistics).certificates_per_doctor = 0) ∧
    (0 < s.doctors.length →
      (s.get_statistics).certificates_per_doctor
        = (s.certificates.length : ℚ) / (s.doctors.length : ℚ)) ∧
    (s.employees.length = 0 → (s.get_statistics).certificates_per_employee = 0) ∧
    (0 < s.employees.length →
      (s.get_statistics).certificates_per_employee
        = (s.certificates.length : ℚ) / (s.employees.length : ℚ)) ∧
    Store.empty.get_statistics =
      { total_doctors := 0, total_employees := 0, total_certificates := 0,
        total_attendances := 0, certificates_per_doctor := 0,
        certificates_per_employee := 0 } := by
  refine ⟨rfl, rfl, rfl, rfl, ?_, ?_, ?_, ?_, by decide⟩
  · intro h; simp [Store.get_statistics, h]
  · intro h; simp [Store.get_statistics, h]
  · intro h; simp [Store.get_statistics, h]
  · intro h; simp [Store.get_statistics, h]

/-- Witness for C7 (amended) at a concrete store with nonzero denominators. -/
theorem C7_get_statistics_witness :
    storeW7.get_statistics.certificates_per_doctor
        = (storeW7.certificates.length : ℚ) / (storeW7.doctors.length : ℚ) ∧
    storeW7.get_statistics.certificates_per_employee
        = (storeW7.certificates.length : ℚ) / (storeW7.employees.length : ℚ) :=
  ⟨(C7_get_statistics storeW7).2.2.2.2.2.1 (by decide),
   (C7_get_statistics storeW7).2.2.2.2.2.2.2.1 (by decide)⟩

/-- Claim C9: `delete_doctor` refuses (failure result, store unchanged) when
any certificate references the doctor, reports not-found (store unchanged)
when the identifier is absent, and removes exactly the doctor's record when it
exists and is unreferenced. -/
theorem C9_delete_doctor (s : Store) (doctor_id : String) :
    (∀ d, getVal? s.doctors doctor_id = some d →
       0 < countCertsD s.certificates doctor_id →
       s.delete_doctor doctor_id =
         ((false, "Médico possui " ++ toString (countCertsD s.certificates doctor_id) ++
            " atendimentos registrados. Não pode ser excluído."), s)) ∧
    (getVal? s.doctors doctor_id = none →
       s.delete_doctor doctor_id = ((false, "Médico não encontrado!"), s)) ∧
    (∀ d, getVal? s.doctors doctor_id = some d →
       countCertsD s.certificates doctor_id = 0 →
       s.delete_doctor doctor_id =
         ((true, "Médico excluído com sucesso!"),
          { s with doctors := s.doctors.eraseP (fun p => p.1 == doctor_id) })) := by
  refine ⟨?_, ?_, ?_⟩
  · intro d hd hpos
    simp [Store.delete_doctor, hd, hpos]
  · intro hd
    simp [Store.delete_doctor, hd]
  · intro d hd hzero
    simp [Store.delete_doctor, hd, hzero]

/-- Witness for C9: refusal on the referenced doctor, not-found on a missing
identifier, removal of the unreferenced doctor. -/
theorem C9_delete_doctor_witness :
    (storeW9.delete_doctor "d1" =
      ((false, "Médico possui " ++ toString (countCertsD storeW9.certificates "d1") ++
         " atendimentos registrados. Não pode ser excluído."), storeW9)) ∧
    (storeW9.delete_doctor "dX" = ((false, "Médico não encontrado!"), storeW9)) ∧
    (storeW9.delete_doctor "d2" =
      ((true, "Médico excluído com sucesso!"),
       { storeW9 with doctors := storeW9.doctors.eraseP (fun p => p.1 == "d2") })) :=
  ⟨(C9_delete_doctor storeW9 "d1").1
      { crm := "1", name := "A", specialty := "", phone := "", email := "",
        total_attendances := 1, total_certificates := 1,
        last_attendance := some "2024-01-01" } (by decide) (by decide),
   (C9_delete_doctor storeW9 "dX").2.1 (by decide),
   (C9_delete_doctor storeW9 "d2").2.2
      { crm := "2", name := "B", specialty := "", phone := "", email := "",
        total_attendances := 0, total_certificates := 0,
        last_attendance := none } (by decide) (by decide)⟩

/-- Writing one field then reading: only the written field changes. -/
theorem getField_setField (d : Doctor) (g f : DoctorField) (v : String) :
    getField (setField d g v) f = if g = f then v else getField d f := by
  cases g <;> cases f <;> simp [getField, setField]

/-- Unfolding one update step. -/
theorem applyUpdates_cons (d : Doctor) (fv : DoctorField × String)
    (rest : List (DoctorField × String)) :
    applyUpdates d (fv :: rest)
      = applyUpdates (if fv.2 == "" then d else setField d fv.1 fv.2) rest := rfl

/-- After all updates, each field holds the last truthy value supplied for it,
or its previous value when none was. -/
theorem getField_applyUpdates (fields : List (DoctorField × String)) :
    ∀ (d : Doctor) (f : DoctorField),
      getField (applyUpdates d fields) f = (lastTruthy f fields).getD (getField d f) := by
  induction fields with
  | nil => intro d f; rfl
  | cons fv rest ih =>
    intro d f
    rw [applyUpdates_cons, ih]
    rcases h : lastTruthy f rest with _ | v
    · simp only [lastTruthy, h]
      by_cases h2 : fv.2 = ""
      · simp [h2]
      · by_cases h1 : fv.1 = f
        · simp [h1, h2, getField_setField]
        · simp [h1, h2, getField_setField]
    · simp [lastTruthy, h]

/-- A last truthy value is never the empty string. -/
theorem lastTruthy_ne_empty (f : DoctorField) :
    ∀ (fields : List (DoctorField × String)) (v : String),
      lastTruthy f fields = some v → v ≠ "" := by
  intro fields
  induction fields with
  | nil => intro v h; cases h
  | cons fv rest ih =>
    intro v h
    simp only [lastTruthy] at h
    rcases h2 : lastTruthy f rest with _ | w
    · rw [h2] at h
      by_cases hc : (fv.1 == f && !(fv.2 == "")) = true
      · rw [if_pos hc] at h
        cases h
        simp only [Bool.and_eq_true, Bool.not_eq_true', beq_eq_false_iff_ne] at hc
        exact hc.2
      · rw [if_neg hc] at h
        cases h
    · rw [h2] at h
      cases h
      exact ih _ h2

/-- In-place dict update: looking up the updated key. -/
theorem getVal?_map_same (l : List (String × α)) (k : String) (g : α → α) :
    getVal? (l.map (fun p => if p.1 == k then (p.1, g p.2) else p)) k
      = (getVal? l k).map g := by
  induction l with
  | nil => rfl
  | cons p rest ih =>
    simp only [List.map_cons]
    by_cases hp : p.1 = k
    · rw [if_pos (by simp [hp])]
      simp [getVal?, List.find?_cons_of_pos, hp]
    · rw [if_neg (by simp [hp])]
      simp only [getVal?] at ih ⊢
      rw [List.find?_cons_of_neg _ (by simp [hp]), List.find?_cons_of_neg _ (by simp [hp])]
      exact ih

/-- In-place dict update: every other key is untouched. -/
theorem getVal?_map_other (l : List (String × α)) (k k' : String) (hkk : k' ≠ k)
    (g : α → α) :
    getVal? (l.map (fun p => if p.1 == k then (p.1, g p.2) else p)) k'
      = getVal? l k' := by
  induction l with
  | nil => rfl
  | cons p rest ih =>
    simp only [List.map_cons]
    by_cases hp' : p.1 = k'
    · have hp : ¬ p.1 = k := fun h => hkk (hp' ▸ h ▸ rfl)
      rw [if_neg (by simp [hp])]
      simp [getVal?, List.find?_cons_of_pos, hp']
    · by_cases hp : p.1 = k
      · rw [if_pos (by simp [hp])]
        simp only [getVal?] at ih ⊢
        rw [List.find?_cons_of_neg _ (by simp [hp']), List.find?_cons_of_neg _ (by simp [hp'])]
        exact ih
      · rw [if_neg (by simp [hp])]
        simp only [getVal?] at ih ⊢
        rw [List.find?_cons_of_neg _ (by simp [hp']), List.find?_cons_of_neg _ (by simp [hp'])]
        exact ih

/-- Claim C10: `update_doctor` on an absent identifier returns False and
changes nothing; on a present doctor it returns True, touches only that
doctor's record, writes every truthy supplied value (the last one when a field
is supplied more than once), skips falsy (empty) values leaving the stored
value unchanged — so a non-empty field is never cleared to empty. -/
theorem C10_update_doctor (s : Store) (doctor_id : String)
    (fields : List (DoctorField × String)) :
    (getVal? s.doctors doctor_id = none →
       s.update_doctor doctor_id fields = (false, s)) ∧
    (∀ d, getVal? s.doctors doctor_id = some d →
       (s.update_doctor doctor_id fields).1 = true ∧
       (s.update_doctor doctor_id fields).2.employees = s.employees ∧
       (s.update_doctor doctor_id fields).2.certificates = s.certificates ∧
       getVal? (s.update_doctor doctor_id fields).2.doctors doctor_id
         = some (applyUpdates d fields) ∧
       (∀ k, k ≠ doctor_id →
          getVal? (s.update_doctor doctor_id fields).2.doctors k = getVal? s.doctors k) ∧
       (∀ f, getField (applyUpdates d fields) f
          = (lastTruthy f fields).getD (getField d f)) ∧
       (∀ f, getField d f ≠ "" → getField (applyUpdates d fields) f ≠ "")) := by
  constructor
  · intro h
    simp [Store.update_doctor, h]
  · intro d hd
    refine ⟨by simp [Store.update_doctor, hd], by simp [Store.update_doctor, hd],
      by simp [Store.update_doctor, hd], ?_, ?_, ?_, ?_⟩
    · simp only [Store.update_doctor, hd]
      rw [getVal?_map_same s.doctors doctor_id (fun x => applyUpdates x fields), hd]
      rfl
    · intro k hk
      simp only [Store.update_doctor, hd]
      exact getVal?_map_other s.doctors doctor_id k hk (fun x => applyUpdates x fields)
    · intro f
      exact getField_applyUpdates fields d f
    · intro f hf
      rw [getField_applyUpdates]
      rcases h : lastTruthy f fields with _ | v
      · simpa using hf
      · simpa using lastTruthy_ne_empty f fields v h

/-- Witness for C10: an absent identifier, and a present doctor updated with
one falsy and one truthy field. -/
theorem C10_update_doctor_witness :
    (storeW10.update_doctor "dX" [(DoctorField.phone, ""), (DoctorField.name, "Bia")]
        = (false, storeW10)) ∧
    (getVal?
        (storeW10.update_doctor "d1"
          [(DoctorField.phone, ""), (DoctorField.name, "Bia")]).2.doctors "d1"
      = some (applyUpdates
          { crm := "1", name := "Ana", specialty := "Gp", phone := "", email := "",
            total_attendances := 0, total_certificates := 0, last_attendance := none }
          [(DoctorField.phone, ""), (DoctorField.name, "Bia")])) ∧
    (getField (applyUpdates
          { crm := "1", name := "Ana", specialty := "Gp", phone := "", email := "",
            total_attendances := 0, total_certificates := 0, last_attendance := none }
          [(DoctorField.phone, ""), (DoctorField.name, "Bia")]) DoctorField.phone
      = (lastTruthy DoctorField.phone
          [(DoctorField.phone, ""), (DoctorField.name, "Bia")]).getD
          (getField
            { crm := "1", name := "Ana", specialty := "Gp", phone := "", email := "",
              total_attendances := 0, total_certificates := 0, last_attendance := none }
            DoctorField.phone)) :=
  ⟨(C10_update_doctor storeW10 "dX"
      [(DoctorField.phone, ""), (DoctorField.name, "Bia")]).1 (by decide),
   ((C10_update_doctor storeW10 "d1"
      [(DoctorField.phone, ""), (DoctorField.name, "Bia")]).2
      { crm := "1", name := "Ana", specialty := "Gp", phone := "", email := "",
        total_attendances := 0, total_certificates := 0, last_attendance := none }
      (by decide)).2.2.2.1,
   (((C10_update_doctor storeW10 "d1"
      [(DoctorField.phone, ""), (DoctorField.name, "Bia")]).2
      { crm := "1", name := "Ana", specialty := "Gp", phone := "", email := "",
        total_attendances := 0, total_certificates := 0, last_attendance := none }
      (by decide)).2.2.2.2.2.1) DoctorField.phone⟩

/-- Stable insertion grows the length by one. -/
theorem length_insertDesc (key : α → Nat) (x : α) :
    ∀ l : List α, (insertDesc key x l).length = l.length + 1 := by
  intro l
  induction l with
  | nil => rfl
  | cons y ys ih =>
    by_cases h : key y ≤ key x
    · simp [insertDesc, h]
    · simp [insertDesc, h, ih]

/-- Stable sort preserves the length. -/
theorem length_sortDesc (key : α → Nat) :
    ∀ l : List α, (sortDesc key l).length = l.length := by
  intro l
  induction l with
  | nil => rfl
  | cons x xs ih => simp [sortDesc, length_insertDesc, ih]

/-- Membership after stable insertion. -/
theorem mem_insertDesc (key : α → Nat) (x a : α) :
    ∀ l : List α, (a ∈ insertDesc key x l ↔ a = x ∨ a ∈ l) := by
  intro l
  induction l with
  | nil => simp [insertDesc]
  | cons y ys ih =>
    by_cases h : key y ≤ key x
    · simp [insertDesc, h]
    · simp [insertDesc, h, ih]
      tauto

/-- Membership after stable sort. -/
theorem mem_sortDesc (key : α → Nat) :
    ∀ (l : List α) (a : α), (a ∈ sortDesc key l ↔ a ∈ l) := by
  intro l
  induction l with
  | nil => intro a; simp [sortDesc]
  | cons x xs ih => intro a; simp [sortDesc, mem_insertDesc, ih]

/-- Stable insertion keeps the list sorted by `key` descending. -/
theorem pairwise_ge_insertDesc (key : α → Nat) (x : α) :
    ∀ l : List α, l.Pairwise (fun a b => key b ≤ key a) →
      (insertDesc key x l).Pairwise (fun a b => key b ≤ key a) := by
  intro l
  induction l with
  | nil => intro _; simp [insertDesc]
  | cons y ys ih =>
    intro hp
    rw [List.pairwise_cons] at hp
    by_cases h : key y ≤ key x
    · simp only [insertDesc, if_pos h]
      rw [List.pairwise_cons]
      refine ⟨?_, ?_⟩
      · intro z hz
        rcases List.mem_cons.mp hz with rfl | hz'
        · exact h
        · exact le_trans (hp.1 z hz') h
      · rw [List.pairwise_cons]
        exact hp
    · simp only [insertDesc, if_neg h]
      rw [List.pairwise_cons]
      refine ⟨?_, ?_⟩
      · intro z hz
        rcases (mem_insertDesc key x z ys).mp hz with rfl | hz'
        · omega
        · exact hp.1 z hz'
      · exact ih hp.2

/-- The stable sort output is sorted by `key` descending. -/
theorem pairwise_ge_sortDesc (key : α → Nat) :
    ∀ l : List α, (sortDesc key l).Pairwise (fun a b => key b ≤ key a) := by
  intro l
  induction l with
  | nil => simp [sortDesc]
  | cons x xs ih => exact pairwise_ge_insertDesc key x _ ih

/-- On index-tagged elements whose indices all exceed the inserted element's,
stable insertion preserves the strict descending-key/ascending-index order. -/
theorem pairwise_lex_insertDesc (key : α → Nat) (x : Nat × α) :
    ∀ l : List (Nat × α),
      l.Pairwise (fun a b => key b.2 < key a.2 ∨ (key a.2 = key b.2 ∧ a.1 < b.1)) →
      (∀ y ∈ l, x.1 < y.1) →
      (insertDesc (fun p => key p.2) x l).Pairwise
        (fun a b => key b.2 < key a.2 ∨ (key a.2 = key b.2 ∧ a.1 < b.1)) := by
  intro l
  induction l with
  | nil => intro _ _; simp [insertDesc]
  | cons y ys ih =>
    intro hp hidx
    rw [List.pairwise_cons] at hp
    by_cases h : key y.2 ≤ key x.2
    · simp only [insertDesc, if_pos h]
      rw [List.pairwise_cons]
      refine ⟨?_, ?_⟩
      · intro z hz
        rcases List.mem_cons.mp hz with rfl | hz'
        · rcases Nat.lt_or_ge (key z.2) (key x.2) with hlt | hge
          · exact Or.inl hlt
          · exact Or.inr ⟨Nat.le_antisymm hge h, hidx z (List.mem_cons_self z ys)⟩
        · rcases hp.1 z hz' with hz1 | ⟨hz2, _⟩
          · exact Or.inl (lt_of_lt_of_le hz1 h)
          · rcases Nat.lt_or_ge (key z.2) (key x.2) with hlt | hge
            · exact Or.inl hlt
            · exact Or.inr ⟨Nat.le_antisymm hge (hz2 ▸ h),
                hidx z (List.mem_cons_of_mem y hz')⟩
      · rw [List.pairwise_cons]
        exact hp
    · simp only [insertDesc, if_neg h]
      rw [List.pairwise_cons]
      refine ⟨?_, ?_⟩
      · intro z hz
        rcases (mem_insertDesc (fun p => key p.2) x z ys).mp hz with rfl | hz'
        · exact Or.inl (Nat.lt_of_not_le h)
        · exact hp.1 z hz'
      · exact ih hp.2 (fun z hz => hidx z (List.mem_cons_of_mem y hz))

/-- Stability: sorting index-tagged elements with strictly increasing indices
yields the strict lexicographic order (key descending, index ascending), so
ties are broken by original position. -/
theorem pairwise_lex_sortDesc (key : α → Nat) :
    ∀ l : List (Nat × α), l.Pairwise (fun a b => a.1 < b.1) →
      (sortDesc (fun p => key p.2) l).Pairwise
        (fun a b => key b.2 < key a.2 ∨ (key a.2 = key b.2 ∧ a.1 < b.1)) := by
  intro l
  induction l with
  | nil => intro _; simp [sortDesc]
  | cons x xs ih =>
    intro hp
    rw [List.pairwise_cons] at hp
    exact pairwise_lex_insertDesc key x _ (ih hp.2)
      (fun y hy => hp.1 y ((mem_sortDesc _ xs y).mp hy))

/-- Dropping the index tags commutes with stable insertion. -/
theorem map_snd_insertDesc (key : α → Nat) (x : Nat × α) :
    ∀ l : List (Nat × α),
      (insertDesc (fun p => key p.2) x l).map Prod.snd
        = insertDesc key x.2 (l.map Prod.snd) := by
  intro l
  induction l with
  | nil => rfl
  | cons y ys ih =>
    by_cases h : key y.2 ≤ key x.2
    · simp [insertDesc, h]
    · simp [insertDesc, h, ih]

/-- Dropping the index tags commutes with the stable sort. -/
theorem map_snd_sortDesc (key : α → Nat) :
    ∀ l : List (Nat × α),
      (sortDesc (fun p => key p.2) l).map Prod.snd = sortDesc key (l.map Prod.snd) := by
  intro l
  induction l with
  | nil => rfl
  | cons x xs ih => simp [sortDesc, map_snd_insertDesc, ih]

/-- Indices in `enumFrom n` are at least `n`. -/
theorem le_fst_mem_enumFrom :
    ∀ (l : List α) (n : Nat) (p : Nat × α), p ∈ List.enumFrom n l → n ≤ p.1 := by
  intro l
  induction l with
  | nil => intro n p h; cases h
  | cons x xs ih =>
    intro n p h
    rcases List.mem_cons.mp h with rfl | h'
    · exact Nat.le_refl n
    · have := ih (n + 1) p h'
      omega

/-- Indices in `enumFrom` are strictly increasing. -/
theorem pairwise_idx_enumFrom (l : List α) :
    ∀ n : Nat, (List.enumFrom n l).Pairwise (fun a b => a.1 < b.1) := by
  induction l with
  | nil => intro n; simp [List.enumFrom]
  | cons x xs ih =>
    intro n
    simp only [List.enumFrom]
    rw [List.pairwise_cons]
    refine ⟨?_, ih (n + 1)⟩
    intro p hp
    have := le_fst_mem_enumFrom xs (n + 1) p hp
    omega

/-- Dropping the index tags of `enumFrom` recovers the list. -/
theorem map_snd_enumFrom :
    ∀ (l : List α) (n : Nat), (List.enumFrom n l).map Prod.snd = l := by
  intro l
  induction l with
  | nil => intro n; rfl
  | cons x xs ih => intro n; simp [List.enumFrom, ih]

/-- Claim C8: `get_top_doctors_certificates` returns all doctors stably sorted
by certificate count descending (ties in insertion order), truncated to
`limit`: the output is sorted descending, has length `min limit (number of
doctors)`, equals the index-tagged stable sort with the tags dropped — and
that index-tagged sort is strictly ordered by (count descending, insertion
position ascending) — and on the concrete 5, 3, 3 store a limit of 2 returns
the count-5 doctor then the earlier-inserted count-3 doctor. -/
theorem C8_top_doctors (s : Store) (limit : Nat) :
    (s.get_top_doctors_certificates limit).Pairwise
        (fun a b => b.total_certificates ≤ a.total_certificates) ∧
    (s.get_top_doctors_certificates limit).length = min limit s.doctors.length ∧
    s.get_top_doctors_certificates limit
      = ((sortDesc (fun p => p.2.total_certificates)
            ((doctorEntries s).enum)).map Prod.snd).take limit ∧
    (sortDesc (fun p : Nat × DoctorEntry => p.2.total_certificates)
        ((doctorEntries s).enum)).Pairwise
        (fun a b => b.2.total_certificates < a.2.total_certificates ∨
          (a.2.total_certificates = b.2.total_certificates ∧ a.1 < b.1)) ∧
    storeW8.get_top_doctors_certificates 2
      = [{ doctor_id := "d1", crm := "1", name := "1", specialty := "",
           total_certificates := 5, total_attendances := 5, last_attendance := none },
         { doctor_id := "d2", crm := "2", name := "2", specialty := "",
           total_certificates := 3, total_attendances := 3, last_attendance := none }] := by
  refine ⟨?_, ?_, ?_, ?_, by decide⟩
  · exact List.Pairwise.sublist (List.take_sublist _ _)
      (pairwise_ge_sortDesc (fun e => e.total_certificates) (doctorEntries s))
  · simp [Store.get_top_doctors_certificates, List.length_take, length_sortDesc,
      doctorEntries]
  · unfold Store.get_top_doctors_certificates
    rw [map_snd_sortDesc]
    rw [show ((doctorEntries s).enum).map Prod.snd = doctorEntries s from
      map_snd_enumFrom (doctorEntries s) 0]
  · exact pairwise_lex_sortDesc (fun e => e.total_certificates) ((doctorEntries s).enum)
      (pairwise_idx_enumFrom (doctorEntries s) 0)

/-- Appending one certificate adds one to the count of exactly its doctor. -/
theorem countCertsD_append (certs : List (String × Certificate))
    (c : String × Certificate) (k : String) :
    countCertsD (certs ++ [c]) k
      = countCertsD certs k + (if c.2.doctor_id == k then 1 else 0) := by
  simp only [countCertsD, List.filter_append, List.length_append]
  cases h : (c.2.doctor_id == k) <;> simp [List.filter, h]

/-- Appending one certificate adds one to the count of exactly its employee. -/
theorem countCertsE_append (certs : List (String × Certificate))
    (c : String × Certificate) (k : String) :
    countCertsE (certs ++ [c]) k
      = countCertsE certs k + (if c.2.employee_id == k then 1 else 0) := by
  simp only [countCertsE, List.filter_append, List.length_append]
  cases h : (c.2.employee_id == k) <;> simp [List.filter, h]

/-- A fresh identifier is not the doctor reference of any certificate. -/
theorem usedId_false_certD {s : Store} {id : String} (h : usedId s id = false) :
    ∀ c ∈ s.certificates, c.2.doctor_id ≠ id := by
  intro c hc heq
  simp only [usedId, Bool.or_eq_false_iff, List.any_eq_false] at h
  have h3 := h.2 c hc
  simp [heq] at h3

/-- A fresh identifier is not the employee reference of any certificate. -/
theorem usedId_false_certE {s : Store} {id : String} (h : usedId s id = false) :
    ∀ c ∈ s.certificates, c.2.employee_id ≠ id := by
  intro c hc heq
  simp only [usedId, Bool.or_eq_false_iff, List.any_eq_false] at h
  have h3 := h.2 c hc
  simp [heq] at h3

/-- A key referenced by no certificate has doctor-certificate count zero. -/
theorem countCertsD_eq_zero {certs : List (String × Certificate)} {k : String}
    (h : ∀ c ∈ certs, c.2.doctor_id ≠ k) : countCertsD certs k = 0 := by
  simp only [countCertsD, List.length_eq_zero, List.filter_eq_nil_iff]
  intro c hc
  simp [h c hc]

/-- A key referenced by no certificate has employee-certificate count zero. -/
theorem countCertsE_eq_zero {certs : List (String × Certificate)} {k : String}
    (h : ∀ c ∈ certs, c.2.employee_id ≠ k) : countCertsE certs k = 0 := by
  simp only [countCertsE, List.length_eq_zero, List.filter_eq_nil_iff]
  intro c hc
  simp [h c hc]

/-- Field updates never change the certificate counter. -/
theorem applyUpdates_total_certificates (fields : List (DoctorField × String)) :
    ∀ d : Doctor, (applyUpdates d fields).total_certificates = d.total_certificates := by
  induction fields with
  | nil => intro d; rfl
  | cons fv rest ih =>
    intro d
    rw [applyUpdates_cons, ih]
    by_cases h : fv.2 = ""
    · simp [h]
    · rw [if_neg (by simp [h])]
      cases hf : fv.1 <;> simp [setField]

/-- The empty store satisfies the counter invariant. -/
theorem counterInv_empty : CounterInv Store.empty := by
  refine ⟨?_, ?_⟩ <;> intro p hp <;> simp [Store.empty] at hp

/-- `add_doctor` preserves the counter invariant (the fresh identifier is
referenced by no certificate, so the new zeroed counter is consistent). -/
theorem counterInv_add_doctor (s : Store) (id crm name specialty phone email : String)
    (h : CounterInv s) (hfresh : usedId s id = false) :
    CounterInv (s.add_doctor id crm name specialty phone email).2 := by
  rcases hf : s.doctors.find? (fun p => lowerStr p.2.crm == lowerStr crm) with _ | q
  · refine ⟨?_, ?_⟩
    · intro p hp
      simp only [Store.add_doctor, hf] at hp ⊢
      rcases List.mem_append.mp hp with hp' | hp'
      · exact h.1 p hp'
      · simp only [List.mem_singleton] at hp'
        subst hp'
        exact (countCertsD_eq_zero (usedId_false_certD hfresh)).symm
    · intro p hp
      simp only [Store.add_doctor, hf] at hp ⊢
      exact h.2 p hp
  · simp only [Store.add_doctor, hf]
    exact h

/-- `add_employee` preserves the counter invariant. -/
theorem counterInv_add_employee (s : Store) (id registration name department : String)
    (h : CounterInv s) (hfresh : usedId s id = false) :
    CounterInv (s.add_employee id registration name department).2 := by
  rcases hf : s.employees.find? (fun p => p.2.registration == registration) with _ | q
  · refine ⟨?_, ?_⟩
    · intro p hp
      simp only [Store.add_employee, hf] at hp ⊢
      exact h.1 p hp
    · intro p hp
      simp only [Store.add_employee, hf] at hp ⊢
      rcases List.mem_append.mp hp with hp' | hp'
      · exact h.2 p hp'
      · simp only [List.mem_singleton] at hp'
        subst hp'
        exact (countCertsE_eq_zero (usedId_false_certE hfresh)).symm
  · simp only [Store.add_employee, hf]
    exact h

/-- `add_certificate` preserves the counter invariant: the stored certificate
and the conditional counter increments stay in step, whether or not the named
doctor and employee exist. -/
theorem counterInv_add_certificate (s : Store)
    (id doctor_id employee_id date : String) (days : Int) (diagnosis : String)
    (h : CounterInv s) :
    CounterInv (s.add_certificate id doctor_id employee_id date days diagnosis).2 := by
  refine ⟨?_, ?_⟩
  · intro p hp
    simp only [Store.add_certificate] at hp ⊢
    rcases List.mem_map.mp hp with ⟨q, hq, rfl⟩
    rw [countCertsD_append]
    by_cases hqd : q.1 = doctor_id
    · simp only [hqd, beq_self_eq_true, if_true]
      simp [bumpDoctor, h.1 q hq, hqd]
    · rw [if_neg (by simp [hqd])]
      simp [h.1 q hq, Ne.symm hqd]
  · intro p hp
    simp only [Store.add_certificate] at hp ⊢
    rcases List.mem_map.mp hp with ⟨q, hq, rfl⟩
    rw [countCertsE_append]
    by_cases hqe : q.1 = employee_id
    · simp only [hqe, beq_self_eq_true, if_true]
      simp [bumpEmployee, h.2 q hq, hqe]
    · rw [if_neg (by simp [hqe])]
      simp [h.2 q hq, Ne.symm hqe]

/-- `update_doctor` preserves the counter invariant: the writable fields do
not include the counters. -/
theorem counterInv_update_doctor (s : Store) (id : String)
    (fields : List (DoctorField × String)) (h : CounterInv s) :
    CounterInv (s.update_doctor id fields).2 := by
  rcases hl : getVal? s.doctors id with _ | d
  · simp only [Store.update_doctor, hl]
    exact h
  · refine ⟨?_, ?_⟩
    · intro p hp
      simp only [Store.update_doctor, hl] at hp ⊢
      rcases List.mem_map.mp hp with ⟨q, hq, rfl⟩
      by_cases hqd : q.1 = id
      · simp only [hqd, beq_self_eq_true, if_true]
        simp [applyUpdates_total_certificates, h.1 q hq, hqd]
      · rw [if_neg (by simp [hqd])]
        exact h.1 q hq
    · intro p hp
      simp only [Store.update_doctor, hl] at hp ⊢
      exact h.2 p hp

/-- `delete_doctor` preserves the counter invariant: at most one doctor record
disappears and the certificates are untouched. -/
theorem counterInv_delete_doctor (s : Store) (id : String) (h : CounterInv s) :
    CounterInv (s.delete_doctor id).2 := by
  rcases hl : getVal? s.doctors id with _ | d
  · simp only [Store.delete_doctor, hl]
    exact h
  · by_cases hn : countCertsD s.certificates id > 0
    · simp only [Store.delete_doctor, hl, if_pos hn]
      exact h
    · simp only [Store.delete_doctor, hl, if_neg hn]
      refine ⟨?_, ?_⟩
      · intro p hp
        exact h.1 p (List.mem_of_mem_eraseP hp)
      · intro p hp
        exact h.2 p hp

/-- Claim C2: in every store state reachable from the empty store through the
public operations, every doctor's `total_certificates` equals the number of
certificates referencing it, and symmetrically for every employee — so N
certificate insertions naming a fixed doctor leave its counter at exactly the
number of certificates that name it, however they interleave with others. -/
theorem C2_counter_consistency (s : Store) (h : Reachable s) : CounterInv s := by
  induction h with
  | empty => exact counterInv_empty
  | add_doctor s id crm name specialty phone email hr hfresh ih =>
      exact counterInv_add_doctor s id crm name specialty phone email ih hfresh
  | add_employee s id registration name department hr hfresh ih =>
      exact counterInv_add_employee s id registration name department ih hfresh
  | add_certificate s id doctor_id employee_id date days diagnosis hr hfresh ih =>
      exact counterInv_add_certificate s id doctor_id employee_id date days diagnosis ih
  | update_doctor s id fields hr ih =>
      exact counterInv_update_doctor s id fields ih
  | delete_doctor s id hr ih =>
      exact counterInv_delete_doctor s id ih

/-- Witness for C2: the invariant holds in the concrete reachable state with
one doctor, one employee and one certificate. -/
theorem C2_counter_consistency_witness : CounterInv storeW2 :=
  C2_counter_consistency storeW2
    (Reachable.add_certificate _ "id3" "id1" "id2" "2024-01-01" 5 "F41"
      (Reachable.add_employee _ "id2" "1" "B" ""
        (Reachable.add_doctor _ "id1" "1/SP" "A" "" "" ""
          Reachable.empty (by decide))
        (by decide))
      (by decide))
